import Mathlib

/-!
Verification of the vertices-geometry translation unit
(src/impeller/entity/geometry/vertices_geometry.cc).

The embedding models 2D points and RGBA colors over the rationals,
16-bit vertex indices as natural numbers (with the narrowing to
16 bits made explicit by reduction modulo 2 ^ 16 where the source
stores a wider counter into a u16 vector), and the C++ for-loops as
left folds over the loop counter range.  Out-of-bounds vector reads
inside the packing loops are modelled with Option-valued access.
-/

namespace VerticesGeo

/-- A 2D point (impeller Point), components over the rationals. -/
abbrev Point := ℚ × ℚ

/-- An RGBA color (impeller Color), components over the rationals. -/
abbrev Color := ℚ × ℚ × ℚ × ℚ

/-- The origin point, used as a concrete sample vertex. -/
def originPoint : Point := (0, 0)

/-- An axis-aligned rectangle (impeller Rect), stored as its four edges. -/
structure Rect where
  left : ℚ
  top : ℚ
  right : ℚ
  bottom : ℚ
deriving DecidableEq

/-- Topology mode of the mesh (VerticesGeometry::VertexMode). -/
inductive VertexMode where
  | kTriangles
  | kTriangleStrip
  | kTriangleFan
deriving DecidableEq

/-- Primitive type reported to the renderer (impeller PrimitiveType,
restricted to the values this translation unit can produce). -/
inductive PrimitiveType where
  | kTriangle
  | kTriangleStrip
deriving DecidableEq

/-- Vertex-format classification (impeller GeometryVertexType). -/
inductive GeometryVertexType where
  | kPosition
  | kColor
  | kUV
deriving DecidableEq

/-- Index width tag of a produced buffer (impeller IndexType, restricted
to the two values this translation unit uses). -/
inductive IndexType where
  | kNone
  | k16bit
deriving DecidableEq

/-- fromFanIndices (vertices_geometry.cc lines 21-52): unroll a triangle
fan into triangle-list indices.  The C++ loops run the counter i from 1
while i < size - 1, appending a triple per iteration, which is embedded
as a left fold over List.range' 1 (size - 1 - 1).  In the implicit
branch the counter is an unsigned int pushed into a vector of uint16_t,
so the stored value is the counter reduced modulo 2 ^ 16. -/
def fromFanIndices (vertices : List Point) (indices : List Nat) : List Nat :=
  if indices.length > 0 then
    if indices.length < 3 then []
    else
      let center_point := indices.getD 0 0
      (List.range' 1 (indices.length - 1 - 1)).foldl
        (fun acc i => acc ++ [center_point, indices.getD i 0, indices.getD (i + 1) 0]) []
  else
    if vertices.length < 3 then []
    else
      (List.range' 1 (vertices.length - 1 - 1)).foldl
        (fun acc i => acc ++ [0, i % 65536, (i + 1) % 65536]) []

/-- Spec-side description of the explicit fan case: with
center = indices[0], the concatenation of the triples
(center, indices[i], indices[i+1]) for i from 1 to indices.length - 2. -/
def specExplicitFan (indices : List Nat) : List Nat :=
  (List.range' 1 (indices.length - 2)).flatMap
    (fun i => [indices.getD 0 0, indices.getD i 0, indices.getD (i + 1) 0])

/-- Spec-side description of the implicit fan case: the concatenation of
the triples (0, i, i+1) for i from 1 to V - 2, with the counter values
taken exactly (no 16-bit narrowing). -/
def specImplicitFan (V : Nat) : List Nat :=
  (List.range' 1 (V - 2)).flatMap (fun i => [0, i, i + 1])

/-- Spec-side description of the implicit fan case with the 16-bit
narrowing of the pushed counter made explicit. -/
def specImplicitFanMod (V : Nat) : List Nat :=
  (List.range' 1 (V - 2)).flatMap (fun i => [0, i % 65536, (i + 1) % 65536])

/-- The mesh geometry object (VerticesGeometry), with the fields the
C++ class stores, in declaration order. -/
structure VerticesGeometry where
  vertices_ : List Point
  colors_ : List Color
  texture_coordinates_ : List Point
  indices_ : List Nat
  bounds_ : Rect
  vertex_mode_ : VertexMode

/-- NormalizeIndices (vertices_geometry.cc lines 83-89): replace the
stored indices with the fan unroller output when the topology mode is
kTriangleFan; every other mode leaves the object unchanged. -/
def NormalizeIndices (g : VerticesGeometry) : VerticesGeometry :=
  if g.vertex_mode_ = VertexMode.kTriangleFan then
    { g with indices_ := fromFanIndices g.vertices_ g.indices_ }
  else g

/-- VerticesGeometry constructor (lines 56-69): store the six inputs
and eagerly normalize the indices. -/
def VerticesGeometry.make (vertices : List Point) (indices : List Nat)
    (texture_coordinates : List Point) (colors : List Color)
    (bounds : Rect) (vertex_mode : VertexMode) : VerticesGeometry :=
  NormalizeIndices
    { vertices_ := vertices, colors_ := colors,
      texture_coordinates_ := texture_coordinates, indices_ := indices,
      bounds_ := bounds, vertex_mode_ := vertex_mode }

/-- GetPrimitiveType (lines 71-81): exhaustive switch over the stored
topology mode. -/
def GetPrimitiveType (g : VerticesGeometry) : PrimitiveType :=
  match g.vertex_mode_ with
  | VertexMode.kTriangleFan => PrimitiveType.kTriangle
  | VertexMode.kTriangleStrip => PrimitiveType.kTriangleStrip
  | VertexMode.kTriangles => PrimitiveType.kTriangle

/-- HasVertexColors (lines 91-93). -/
def HasVertexColors (g : VerticesGeometry) : Bool :=
  decide (g.colors_.length > 0)

/-- HasTextureCoordinates (lines 95-97). -/
def HasTextureCoordinates (g : VerticesGeometry) : Bool :=
  decide (g.texture_coordinates_.length > 0)

/-- Modelled from the spec: Rect::MakePointBounds (outside src/), the
axis-aligned bounding rectangle of a point sequence (absent for an
empty sequence), obtained by folding min and max over the components. -/
def makePointBounds : List Point → Option Rect
  | [] => none
  | p :: ps =>
    some
      { left := (ps.map Prod.fst).foldl min p.1,
        top := (ps.map Prod.snd).foldl min p.2,
        right := (ps.map Prod.fst).foldl max p.1,
        bottom := (ps.map Prod.snd).foldl max p.2 }

/-- GetTextureCoordinateCoverge (lines 99-110): absent without texture
coordinates or with a zero vertex count, otherwise the bounding
rectangle of the texture coordinates. -/
def GetTextureCoordinateCoverge (g : VerticesGeometry) : Option Rect :=
  if !(HasTextureCoordinates g) then none
  else
    let vertex_count := g.vertices_.length
    if vertex_count = 0 then none
    else makePointBounds g.texture_coordinates_

/-- GetVertexType (lines 248-257): colors take precedence over texture
coordinates, which take precedence over bare positions. -/
def GetVertexType (g : VerticesGeometry) : GeometryVertexType :=
  if HasVertexColors g then GeometryVertexType.kColor
  else if HasTextureCoordinates g then GeometryVertexType.kUV
  else GeometryVertexType.kPosition

/-- Spec-side description of a bounding rectangle: it contains every
point of the sequence. -/
def rectContainsAll (r : Rect) (ps : List Point) : Prop :=
  ∀ p ∈ ps, r.left ≤ p.1 ∧ p.1 ≤ r.right ∧ r.top ≤ p.2 ∧ p.2 ≤ r.bottom

/-- Spec-side description of tightness: each edge of the rectangle is
attained by some point of the sequence. -/
def rectEdgesAttained (r : Rect) (ps : List Point) : Prop :=
  (∃ p ∈ ps, p.1 = r.left) ∧ (∃ p ∈ ps, p.1 = r.right) ∧
    (∃ p ∈ ps, p.2 = r.top) ∧ (∃ p ∈ ps, p.2 = r.bottom)

/-- Modelled from the spec: std::clamp over the rationals, clamping v
into [lo, hi] (lo below, hi above, v otherwise). -/
def clampQ (v lo hi : ℚ) : ℚ :=
  if v < lo then lo else if hi < v then hi else v

/-- Modelled from the spec: the small positive constant kEhCloseEnough
(1e-3, outside src/) subtracted from 1 so that clamped texture
coordinates stay strictly below 1. -/
def kEhCloseEnough : ℚ := 1 / 1000

/-- Modelled from the spec: Rect::GetNormalizingTransform (outside
src/) maps the coverage rectangle onto the unit square (translate the
origin away, then scale by the reciprocal extents). -/
def normalizingTransform (r : Rect) : Point → Point :=
  fun p => ((p.1 - r.left) / (r.right - r.left), (p.2 - r.top) / (r.bottom - r.top))

/-- Modelled from the spec: transform composition acting on points, the
left transform applied after the right (matrix product order). -/
def composeT (a b : Point → Point) : Point → Point := fun p => a (b p)

/-- Interleaved per-vertex record of the position+color pipeline
(GeometryColorPipeline::VertexShader::PerVertexData). -/
structure PerVertexColor where
  position : Point
  color : Color
deriving DecidableEq

/-- Interleaved per-vertex record of the position+UV+color pipeline
(PorterDuffBlendPipeline::VertexShader::PerVertexData). -/
structure PerVertexUV where
  position : Point
  textureCoords : Point
  color : Color
deriving DecidableEq

/-- Default per-vertex UV record, used only to read Option results. -/
def defaultUV : PerVertexUV :=
  { position := originPoint, textureCoords := originPoint,
    color := (0, 0, 0, 0) }

/-- The result envelope of a buffer builder (GeometryResult),
parameterized by the packed per-vertex record type.  vertexData is the
packed vertex sequence, with out-of-bounds reads in the packing loop
modelled as an absent result. -/
structure GeometryResult (V : Type) where
  type : PrimitiveType
  vertexData : Option (List V)
  hasIndexBuffer : Bool
  indexData : List Nat
  vertexCount : Nat
  indexType : IndexType

/-- Option-valued map over a list, modelling a packing loop whose body
performs bounds-checked element access: the body runs for each counter
value in order and any out-of-bounds access poisons the result. -/
def mapOpt {α β : Type} (f : α → Option β) : List α → Option (List β)
  | [] => some []
  | a :: l =>
    match f a, mapOpt f l with
    | some b, some r => some (b :: r)
    | _, _ => none

/-- GetPositionBuffer (lines 112-144): the vertex payload is the raw
position array; the index buffer, vertex count and index width depend
on whether indices are present. -/
def GetPositionBuffer (g : VerticesGeometry) : GeometryResult Point :=
  let index_count := g.indices_.length
  let vertex_count := g.vertices_.length
  { type := GetPrimitiveType g,
    vertexData := some g.vertices_,
    hasIndexBuffer := decide (index_count > 0),
    indexData := if index_count > 0 then g.indices_ else [],
    vertexCount := if index_count > 0 then index_count else vertex_count,
    indexType := if index_count > 0 then IndexType.k16bit else IndexType.kNone }

/-- Loop body of the GetPositionColorBuffer packing loop (lines
161-167): read the position and the color at index i; every read is
bounds-checked in the model. -/
def colorLoopBody (g : VerticesGeometry) (i : Nat) : Option PerVertexColor := do
  let position ← g.vertices_[i]?
  let color ← g.colors_[i]?
  pure { position := position, color := color }

/-- GetPositionColorBuffer (lines 146-188): pack (position, color) per
vertex; envelope as in the position builder. -/
def GetPositionColorBuffer (g : VerticesGeometry) : GeometryResult PerVertexColor :=
  let index_count := g.indices_.length
  let vertex_count := g.vertices_.length
  let vertexData := mapOpt (colorLoopBody g) (List.range g.vertices_.length)
  { type := GetPrimitiveType g,
    vertexData := vertexData,
    hasIndexBuffer := decide (index_count > 0),
    indexData := if index_count > 0 then g.indices_ else [],
    vertexCount := if index_count > 0 then index_count else vertex_count,
    indexType := if index_count > 0 then IndexType.k16bit else IndexType.kNone }

/-- Loop body of the GetPositionUVColorBuffer packing loop (lines
208-222): read the position, take the texture coordinate at i (falling
back to the position when no texture coordinates are stored), apply the
composed UV transform, clamp each component into
[0, 1 - kEhCloseEnough], and read the color at i; every read is
bounds-checked in the model.  The transform and the texture-coordinate
presence flag are hoisted out of the loop in the source; inlining them
here is value-identical since both are pure. -/
def uvLoopBody (texture_coverage : Rect) (effect_transform : Point → Point)
    (g : VerticesGeometry) (i : Nat) : Option PerVertexUV := do
  let vertex ← g.vertices_[i]?
  let texture_coord ←
    if HasTextureCoordinates g then g.texture_coordinates_[i]?
    else g.vertices_[i]?
  let uv :=
    composeT (normalizingTransform texture_coverage) effect_transform
      texture_coord
  let color ← g.colors_[i]?
  pure { position := vertex,
         textureCoords :=
           (clampQ uv.1 0 (1 - kEhCloseEnough),
            clampQ uv.2 0 (1 - kEhCloseEnough)),
         color := color }

/-- Spec-side description of the packed UV record for vertex i: apply
uv_transform = normalizing_transform(texture_coverage) composed with
effect_transform to texture_coordinates[i] when texture coordinates are
present and to vertices[i] otherwise, then clamp each component
independently into [0, 1 - kEhCloseEnough]. -/
def specUVRecord (texture_coverage : Rect) (effect_transform : Point → Point)
    (g : VerticesGeometry) (i : Nat) : PerVertexUV :=
  let src :=
    if g.texture_coordinates_ ≠ [] then
      g.texture_coordinates_.getD i originPoint
    else g.vertices_.getD i originPoint
  let uv := composeT (normalizingTransform texture_coverage) effect_transform src
  { position := g.vertices_.getD i originPoint,
    textureCoords :=
      (clampQ uv.1 0 (1 - kEhCloseEnough),
       clampQ uv.2 0 (1 - kEhCloseEnough)),
    color := g.colors_.getD i (0, 0, 0, 0) }

/-- GetPositionUVColorBuffer (lines 190-246): compute the UV transform
once, then run the packing loop per vertex; envelope as in the other
builders. -/
def GetPositionUVColorBuffer (texture_coverage : Rect)
    (effect_transform : Point → Point) (g : VerticesGeometry) :
    GeometryResult PerVertexUV :=
  let vertex_count := g.vertices_.length
  let vertexData :=
    mapOpt (uvLoopBody texture_coverage effect_transform g)
      (List.range g.vertices_.length)
  let index_count := g.indices_.length
  { type := GetPrimitiveType g,
    vertexData := vertexData,
    hasIndexBuffer := decide (index_count > 0),
    indexData := if index_count > 0 then g.indices_ else [],
    vertexCount := if index_count > 0 then index_count else vertex_count,
    indexType := if index_count > 0 then IndexType.k16bit else IndexType.kNone }

/-- A concrete rectangle used by the witnesses. -/
def sampleRect : Rect := { left := 0, top := 0, right := 1, bottom := 1 }

/-- A concrete opaque white color used by the witnesses. -/
def sampleColor : Color := (1, 1, 1, 1)

/-- A concrete indexed triangle geometry used by the witnesses. -/
def sampleIndexedGeometry : VerticesGeometry :=
  { vertices_ := [originPoint, (1, 0), (0, 1)],
    colors_ := [sampleColor, sampleColor, sampleColor],
    texture_coordinates_ := [], indices_ := [0, 1, 2],
    bounds_ := sampleRect, vertex_mode_ := VertexMode.kTriangles }

/-- A concrete unindexed geometry used by the witnesses. -/
def sampleUnindexedGeometry : VerticesGeometry :=
  { vertices_ := [originPoint, (1, 0), (0, 1)],
    colors_ := [sampleColor, sampleColor, sampleColor],
    texture_coordinates_ := [], indices_ := [],
    bounds_ := sampleRect, vertex_mode_ := VertexMode.kTriangles }

/-- A concrete geometry whose colors array is shorter than its vertex
array while texture coordinates are present, used by the witnesses. -/
def shortColorsGeometry : VerticesGeometry :=
  { vertices_ := [originPoint, (1, 1)], colors_ := [sampleColor],
    texture_coordinates_ := [originPoint, (1, 1)], indices_ := [],
    bounds_ := sampleRect, vertex_mode_ := VertexMode.kTriangles }

/-- A left fold that appends a chunk per element is the flat map. -/
theorem foldl_append_eq_flatMap (f : Nat → List Nat) :
    ∀ (l : List Nat) (acc : List Nat),
      l.foldl (fun acc i => acc ++ f i) acc = acc ++ l.flatMap f := by
  intro l
  induction l with
  | nil => intro acc; simp
  | cons x xs ih => intro acc; simp [ih, List.append_assoc]

/-- A flat map emitting three elements per counter value has length
three times the counter range. -/
theorem flatMap_triple_length (f : Nat → List Nat)
    (h3 : ∀ i, (f i).length = 3) :
    ∀ (n s : Nat), ((List.range' s n).flatMap f).length = 3 * n := by
  intro n
  induction n with
  | zero => intro s; simp
  | succ m ih =>
    intro s
    rw [List.range'_succ, List.flatMap_cons, List.length_append, h3, ih]
    omega

/-- A flat map is unchanged when the emitted chunks agree on every
element of the counter range. -/
theorem flatMap_congr_mem {f g : Nat → List Nat} :
    ∀ {l : List Nat}, (∀ i ∈ l, f i = g i) → l.flatMap f = l.flatMap g := by
  intro l
  induction l with
  | nil => intro _; rfl
  | cons x xs ih =>
    intro h
    rw [List.flatMap_cons, List.flatMap_cons, h x (by simp), ih]
    intro i hi
    exact h i (by simp [hi])

/-- The explicit branch of fromFanIndices, in flat-map form. -/
theorem fromFanIndices_explicit_eq (vertices : List Point) (indices : List Nat)
    (h3 : 3 ≤ indices.length) :
    fromFanIndices vertices indices = specExplicitFan indices := by
  have hpos : indices.length > 0 := by omega
  have hlt : ¬ indices.length < 3 := by omega
  have hsub : indices.length - 1 - 1 = indices.length - 2 := by omega
  simp only [fromFanIndices, if_pos hpos, if_neg hlt, hsub]
  rw [foldl_append_eq_flatMap]
  simp [specExplicitFan]

/-- The implicit branch of fromFanIndices, in flat-map form. -/
theorem fromFanIndices_implicit_eq (vertices : List Point)
    (h3 : 3 ≤ vertices.length) :
    fromFanIndices vertices [] = specImplicitFanMod vertices.length := by
  have hlt : ¬ vertices.length < 3 := by omega
  have hsub : vertices.length - 1 - 1 = vertices.length - 2 := by omega
  simp only [fromFanIndices, List.length_nil, gt_iff_lt, lt_self_iff_false,
    if_false, if_neg hlt, hsub]
  rw [foldl_append_eq_flatMap]
  simp [specImplicitFanMod]

/-- C1: for the fan unroller with a non-empty explicit index list, if
fewer than three indices are given the result is empty; otherwise the
result is the concatenation of the triples (center, indices[i],
indices[i+1]) for i from 1 to indices.length - 2 with center =
indices[0], its length is 3 * (indices.length - 2), and input
[5,1,2,3] yields [5,1,2, 5,2,3]. -/
theorem C1_explicit_fan (vertices : List Point) (indices : List Nat)
    (hne : indices ≠ []) :
    (indices.length < 3 → fromFanIndices vertices indices = []) ∧
    (3 ≤ indices.length →
      fromFanIndices vertices indices = specExplicitFan indices ∧
      (fromFanIndices vertices indices).length = 3 * (indices.length - 2)) ∧
    fromFanIndices vertices [5, 1, 2, 3] = [5, 1, 2, 5, 2, 3] := by
  refine ⟨?_, ?_, ?_⟩
  · intro hlt
    have hpos : indices.length > 0 := List.length_pos.mpr hne
    simp [fromFanIndices, if_pos hpos, if_pos hlt]
  · intro h3
    refine ⟨fromFanIndices_explicit_eq vertices indices h3, ?_⟩
    rw [fromFanIndices_explicit_eq vertices indices h3]
    unfold specExplicitFan
    refine flatMap_triple_length _ ?_ _ _
    intro i
    rfl
  · have h3 : 3 ≤ ([5, 1, 2, 3] : List Nat).length := by decide
    rw [fromFanIndices_explicit_eq vertices [5, 1, 2, 3] h3]
    decide

/-- Concrete instantiation of C1_explicit_fan. -/
theorem C1_explicit_fan_witness :
    fromFanIndices [] [5, 1, 2, 3] = specExplicitFan [5, 1, 2, 3] ∧
    fromFanIndices [] [5, 1, 2, 3] = [5, 1, 2, 5, 2, 3] := by
  have h := C1_explicit_fan [] [5, 1, 2, 3] (by decide)
  exact ⟨(h.2.1 (by decide)).1, h.2.2⟩

/-- Every index emitted by the implicit fan branch is below 2 ^ 16,
because each pushed counter value is narrowed into a uint16_t. -/
theorem implicit_elements_lt (vertices : List Point) :
    ∀ x ∈ fromFanIndices vertices [], x < 65536 := by
  intro x hx
  by_cases h3 : 3 ≤ vertices.length
  · rw [fromFanIndices_implicit_eq vertices h3, specImplicitFanMod] at hx
    rcases List.mem_flatMap.mp hx with ⟨i, _, hmem⟩
    simp only [List.mem_cons, List.mem_singleton, List.not_mem_nil, or_false] at hmem
    rcases hmem with h | h | h
    · omega
    · rw [h]; exact Nat.mod_lt _ (by omega)
    · rw [h]; exact Nat.mod_lt _ (by omega)
  · have hlt : vertices.length < 3 := by omega
    simp [fromFanIndices, hlt] at hx

/-- The exact (unnarrowed) implicit fan output contains the counter
value V - 1, emitted by the last loop iteration. -/
theorem sub_one_mem_specImplicitFan (V : Nat) (h : 3 ≤ V) :
    V - 1 ∈ specImplicitFan V := by
  unfold specImplicitFan
  refine List.mem_flatMap.mpr ⟨V - 2, ?_, ?_⟩
  · exact List.mem_range'_1.mpr ⟨by omega, by omega⟩
  · have hsucc : V - 2 + 1 = V - 1 := by omega
    simp [hsucc]

/-- For a vertex count of at least 65537, the implicit fan output
differs from the exact counter sequence: the narrowed indices all stay
below 65536 while the exact sequence reaches V - 1. -/
theorem implicit_wraps_at (V : Nat) (h3 : 3 ≤ V) (hbig : 65537 ≤ V) :
    fromFanIndices (List.replicate V originPoint) [] ≠ specImplicitFan V := by
  intro heq
  have hmem : V - 1 ∈ specImplicitFan V := sub_one_mem_specImplicitFan V h3
  rw [← heq] at hmem
  have hlt := implicit_elements_lt (List.replicate V originPoint) (V - 1) hmem
  omega

/-- Below the wrap threshold the narrowing is the identity, so the
implicit fan output equals the exact counter sequence. -/
theorem implicit_exact_below (V : Nat) (h3 : 3 ≤ V) (hle : V ≤ 65536) :
    specImplicitFanMod V = specImplicitFan V := by
  unfold specImplicitFanMod specImplicitFan
  apply flatMap_congr_mem
  intro i hi
  have hrange := List.mem_range'_1.mp hi
  have h1 : i % 65536 = i := Nat.mod_eq_of_lt (by omega)
  have h2 : (i + 1) % 65536 = i + 1 := Nat.mod_eq_of_lt (by omega)
  rw [h1, h2]

/-- C2 counterexample: with 65538 vertices the implicit fan output is
not the concatenation of the exact triples (0, i, i+1), because the
pushed counter is narrowed to 16 bits. -/
theorem C2_implicit_fan_cex :
    (List.replicate 65538 originPoint).length = 65538 ∧
    fromFanIndices (List.replicate 65538 originPoint) [] ≠
      specImplicitFan 65538 := by
  exact ⟨List.length_replicate 65538 originPoint,
    implicit_wraps_at 65538 (by omega) (by omega)⟩

/-- C2 (amended): for the fan unroller with an empty index list, if
fewer than three vertices are given the result is empty; otherwise the
result is the concatenation of the triples
(0, i mod 2 ^ 16, (i+1) mod 2 ^ 16) for i from 1 to vertices.length - 2
(the pushed counter is narrowed into a 16-bit index), with length
3 * (vertices.length - 2); five vertices yield [0,1,2, 0,2,3, 0,3,4]. -/
theorem C2_implicit_fan (vertices : List Point) :
    (vertices.length < 3 → fromFanIndices vertices [] = []) ∧
    (3 ≤ vertices.length →
      fromFanIndices vertices [] = specImplicitFanMod vertices.length ∧
      (fromFanIndices vertices []).length = 3 * (vertices.length - 2)) ∧
    (vertices.length = 5 →
      fromFanIndices vertices [] = [0, 1, 2, 0, 2, 3, 0, 3, 4]) := by
  refine ⟨?_, ?_, ?_⟩
  · intro hlt
    simp [fromFanIndices, hlt]
  · intro h3
    refine ⟨fromFanIndices_implicit_eq vertices h3, ?_⟩
    rw [fromFanIndices_implicit_eq vertices h3]
    unfold specImplicitFanMod
    refine flatMap_triple_length _ ?_ _ _
    intro i
    rfl
  · intro h5
    have h3 : 3 ≤ vertices.length := by omega
    rw [fromFanIndices_implicit_eq vertices h3, h5]
    decide

/-- Concrete instantiation of C2_implicit_fan. -/
theorem C2_implicit_fan_witness :
    fromFanIndices (List.replicate 5 originPoint) [] =
      [0, 1, 2, 0, 2, 3, 0, 3, 4] := by
  exact (C2_implicit_fan (List.replicate 5 originPoint)).2.2 (by simp)

/-- C10 counterexample: the emitted indices do not equal the counter
values exactly over the whole claimed range 3 ≤ V ≤ 65537; at
V = 65537 the final pushed counter value 65536 wraps to 0. -/
theorem C10_narrowing_cex :
    3 ≤ 65537 ∧ 65537 ≤ 65537 ∧
    (List.replicate 65537 originPoint).length = 65537 ∧
    fromFanIndices (List.replicate 65537 originPoint) [] ≠
      specImplicitFan 65537 := by
  exact ⟨by omega, by omega, List.length_replicate 65537 originPoint,
    implicit_wraps_at 65537 (by omega) (by omega)⟩

/-- C10 (amended): in the implicit fan case the emitted index values are
the loop counter reduced modulo 2 ^ 16; for every vertex count V with
3 ≤ V ≤ 65536 the emitted indices equal the counter values exactly, and
at V = 65537 an emitted index wraps around and no longer refers to the
intended vertex. -/
theorem C10_narrowing (V : Nat) (vertices : List Point)
    (h3 : 3 ≤ V) (hle : V ≤ 65536) (hlen : vertices.length = V) :
    fromFanIndices vertices [] = specImplicitFanMod V ∧
    fromFanIndices vertices [] = specImplicitFan V ∧
    fromFanIndices (List.replicate 65537 originPoint) [] ≠
      specImplicitFan 65537 := by
  have heq := fromFanIndices_implicit_eq vertices (by omega)
  rw [hlen] at heq
  refine ⟨heq, ?_, implicit_wraps_at 65537 (by omega) (by omega)⟩
  rw [heq, implicit_exact_below V h3 hle]

/-- Concrete instantiation of C10_narrowing. -/
theorem C10_narrowing_witness :
    fromFanIndices (List.replicate 5 originPoint) [] = specImplicitFan 5 := by
  exact (C10_narrowing 5 (List.replicate 5 originPoint)
    (by omega) (by omega) (by simp)).2.1

/-- C3: construction normalizes only the index list — with TriangleFan
topology the stored indices are the fan unroller output over the
original vertices and indices, with any other mode they are the input
indices — while vertices, colors, texture coordinates, bounds and the
topology mode field itself always equal the construction inputs. -/
theorem C3_construction_normalizes (vertices : List Point)
    (indices : List Nat) (texture_coordinates : List Point)
    (colors : List Color) (bounds : Rect) (vertex_mode : VertexMode) :
    (vertex_mode = VertexMode.kTriangleFan →
      (VerticesGeometry.make vertices indices texture_coordinates colors
        bounds vertex_mode).indices_ = fromFanIndices vertices indices) ∧
    (vertex_mode ≠ VertexMode.kTriangleFan →
      (VerticesGeometry.make vertices indices texture_coordinates colors
        bounds vertex_mode).indices_ = indices) ∧
    (VerticesGeometry.make vertices indices texture_coordinates colors
      bounds vertex_mode).vertices_ = vertices ∧
    (VerticesGeometry.make vertices indices texture_coordinates colors
      bounds vertex_mode).colors_ = colors ∧
    (VerticesGeometry.make vertices indices texture_coordinates colors
      bounds vertex_mode).texture_coordinates_ = texture_coordinates ∧
    (VerticesGeometry.make vertices indices texture_coordinates colors
      bounds vertex_mode).bounds_ = bounds ∧
    (VerticesGeometry.make vertices indices texture_coordinates colors
      bounds vertex_mode).vertex_mode_ = vertex_mode := by
  cases vertex_mode <;>
    simp [VerticesGeometry.make, NormalizeIndices]

/-- Concrete instantiation of C3_construction_normalizes. -/
theorem C3_construction_normalizes_witness :
    (VerticesGeometry.make [originPoint, originPoint, originPoint] []
      [] [] sampleRect VertexMode.kTriangleFan).indices_ =
      fromFanIndices [originPoint, originPoint, originPoint] [] ∧
    (VerticesGeometry.make [originPoint, originPoint, originPoint] [0, 1, 2]
      [] [] sampleRect VertexMode.kTriangles).indices_ = [0, 1, 2] := by
  refine ⟨?_, ?_⟩
  · exact (C3_construction_normalizes [originPoint, originPoint, originPoint]
      [] [] [] sampleRect VertexMode.kTriangleFan).1 rfl
  · exact ((C3_construction_normalizes [originPoint, originPoint, originPoint]
      [0, 1, 2] [] [] sampleRect VertexMode.kTriangles).2.1 (by decide))

/-- C6: GetPrimitiveType returns kTriangle for the Triangles and
TriangleFan modes, kTriangleStrip for the TriangleStrip mode, and no
other value is possible for any geometry. -/
theorem C6_primitive_type (g : VerticesGeometry) :
    ((g.vertex_mode_ = VertexMode.kTriangles ∨
        g.vertex_mode_ = VertexMode.kTriangleFan) →
      GetPrimitiveType g = PrimitiveType.kTriangle) ∧
    (g.vertex_mode_ = VertexMode.kTriangleStrip →
      GetPrimitiveType g = PrimitiveType.kTriangleStrip) ∧
    (GetPrimitiveType g = PrimitiveType.kTriangle ∨
      GetPrimitiveType g = PrimitiveType.kTriangleStrip) := by
  rcases g with ⟨v, c, t, i, b, m⟩
  cases m <;> simp [GetPrimitiveType]

/-- Concrete instantiation of C6_primitive_type. -/
theorem C6_primitive_type_witness :
    GetPrimitiveType
      { vertices_ := [], colors_ := [], texture_coordinates_ := [],
        indices_ := [], bounds_ := sampleRect,
        vertex_mode_ := VertexMode.kTriangleFan } =
      PrimitiveType.kTriangle := by
  exact (C6_primitive_type
    { vertices_ := [], colors_ := [], texture_coordinates_ := [],
      indices_ := [], bounds_ := sampleRect,
      vertex_mode_ := VertexMode.kTriangleFan }).1 (Or.inr rfl)

/-- C7: GetVertexType returns kColor whenever colors are present
(regardless of texture coordinates), else kUV when texture coordinates
are present, else kPosition; with both present the result is kColor and
never kUV. -/
theorem C7_vertex_type (g : VerticesGeometry) :
    (g.colors_ ≠ [] → GetVertexType g = GeometryVertexType.kColor) ∧
    (g.colors_ = [] → g.texture_coordinates_ ≠ [] →
      GetVertexType g = GeometryVertexType.kUV) ∧
    (g.colors_ = [] → g.texture_coordinates_ = [] →
      GetVertexType g = GeometryVertexType.kPosition) ∧
    (g.colors_ ≠ [] → g.texture_coordinates_ ≠ [] →
      GetVertexType g = GeometryVertexType.kColor ∧
        GetVertexType g ≠ GeometryVertexType.kUV) := by
  rcases g with ⟨v, c, t, i, b, m⟩
  by_cases hc : c = [] <;> by_cases ht : t = [] <;>
    simp_all [GetVertexType, HasVertexColors, HasTextureCoordinates,
      List.length_pos]

/-- Concrete instantiation of C7_vertex_type. -/
theorem C7_vertex_type_witness :
    GetVertexType
      { vertices_ := [originPoint], colors_ := [sampleColor],
        texture_coordinates_ := [originPoint], indices_ := [],
        bounds_ := sampleRect, vertex_mode_ := VertexMode.kTriangles } =
      GeometryVertexType.kColor := by
  exact ((C7_vertex_type
    { vertices_ := [originPoint], colors_ := [sampleColor],
      texture_coordinates_ := [originPoint], indices_ := [],
      bounds_ := sampleRect,
      vertex_mode_ := VertexMode.kTriangles }).2.2.2 (by decide) (by decide)).1

/-- Folding min over a list stays below the seed and every element. -/
theorem foldl_min_le (l : List ℚ) :
    ∀ a : ℚ, (l.foldl min a ≤ a ∧ ∀ b ∈ l, l.foldl min a ≤ b) := by
  induction l with
  | nil => intro a; exact ⟨le_refl a, by simp⟩
  | cons c l ih =>
    intro a
    have hfold : (c :: l).foldl min a = l.foldl min (min a c) := rfl
    constructor
    · rw [hfold]
      exact le_trans (ih (min a c)).1 (min_le_left a c)
    · intro b hb
      rw [hfold]
      rcases List.mem_cons.mp hb with h | h
      · subst h
        exact le_trans (ih (min a b)).1 (min_le_right a b)
      · exact (ih (min a c)).2 b h

/-- Folding max over a list stays above the seed and every element. -/
theorem foldl_max_ge (l : List ℚ) :
    ∀ a : ℚ, (a ≤ l.foldl max a ∧ ∀ b ∈ l, b ≤ l.foldl max a) := by
  induction l with
  | nil => intro a; exact ⟨le_refl a, by simp⟩
  | cons c l ih =>
    intro a
    have hfold : (c :: l).foldl max a = l.foldl max (max a c) := rfl
    constructor
    · rw [hfold]
      exact le_trans (le_max_left a c) (ih (max a c)).1
    · intro b hb
      rw [hfold]
      rcases List.mem_cons.mp hb with h | h
      · subst h
        exact le_trans (le_max_right a b) (ih (max a b)).1
      · exact (ih (max a c)).2 b h

/-- The min fold is attained: it is the seed or one of the elements. -/
theorem foldl_min_mem (l : List ℚ) :
    ∀ a : ℚ, l.foldl min a = a ∨ l.foldl min a ∈ l := by
  induction l with
  | nil => intro a; exact Or.inl rfl
  | cons c l ih =>
    intro a
    have hfold : (c :: l).foldl min a = l.foldl min (min a c) := rfl
    rw [hfold]
    rcases ih (min a c) with h | h
    · rcases le_total a c with hac | hca
      · exact Or.inl (by rw [h, min_eq_left hac])
      · refine Or.inr ?_
        rw [h, min_eq_right hca]
        exact List.mem_cons_self c l
    · exact Or.inr (List.mem_cons.mpr (Or.inr h))

/-- The max fold is attained: it is the seed or one of the elements. -/
theorem foldl_max_mem (l : List ℚ) :
    ∀ a : ℚ, l.foldl max a = a ∨ l.foldl max a ∈ l := by
  induction l with
  | nil => intro a; exact Or.inl rfl
  | cons c l ih =>
    intro a
    have hfold : (c :: l).foldl max a = l.foldl max (max a c) := rfl
    rw [hfold]
    rcases ih (max a c) with h | h
    · rcases le_total a c with hac | hca
      · refine Or.inr ?_
        rw [h, max_eq_right hac]
        exact List.mem_cons_self c l
      · exact Or.inl (by rw [h, max_eq_left hca])
    · exact Or.inr (List.mem_cons.mpr (Or.inr h))

/-- The rectangle computed by makePointBounds contains every point of
the sequence and attains each of its edges. -/
theorem makePointBounds_spec (q : Point) (qs : List Point) :
    rectContainsAll ((makePointBounds (q :: qs)).getD sampleRect) (q :: qs) ∧
    rectEdgesAttained ((makePointBounds (q :: qs)).getD sampleRect) (q :: qs) := by
  simp only [makePointBounds, Option.getD_some]
  constructor
  · intro p hp
    rcases List.mem_cons.mp hp with h | h
    · subst h
      exact ⟨(foldl_min_le (qs.map Prod.fst) p.1).1,
        (foldl_max_ge (qs.map Prod.fst) p.1).1,
        (foldl_min_le (qs.map Prod.snd) p.2).1,
        (foldl_max_ge (qs.map Prod.snd) p.2).1⟩
    · refine ⟨(foldl_min_le (qs.map Prod.fst) q.1).2 p.1 ?_,
        (foldl_max_ge (qs.map Prod.fst) q.1).2 p.1 ?_,
        (foldl_min_le (qs.map Prod.snd) q.2).2 p.2 ?_,
        (foldl_max_ge (qs.map Prod.snd) q.2).2 p.2 ?_⟩
      · exact List.mem_map_of_mem Prod.fst h
      · exact List.mem_map_of_mem Prod.fst h
      · exact List.mem_map_of_mem Prod.snd h
      · exact List.mem_map_of_mem Prod.snd h
  · refine ⟨?_, ?_, ?_, ?_⟩
    · rcases foldl_min_mem (qs.map Prod.fst) q.1 with h | h
      · exact ⟨q, List.mem_cons_self q qs, h.symm⟩
      · rcases List.mem_map.mp h with ⟨p, hp, hpe⟩
        exact ⟨p, List.mem_cons.mpr (Or.inr hp), hpe⟩
    · rcases foldl_max_mem (qs.map Prod.fst) q.1 with h | h
      · exact ⟨q, List.mem_cons_self q qs, h.symm⟩
      · rcases List.mem_map.mp h with ⟨p, hp, hpe⟩
        exact ⟨p, List.mem_cons.mpr (Or.inr hp), hpe⟩
    · rcases foldl_min_mem (qs.map Prod.snd) q.2 with h | h
      · exact ⟨q, List.mem_cons_self q qs, h.symm⟩
      · rcases List.mem_map.mp h with ⟨p, hp, hpe⟩
        exact ⟨p, List.mem_cons.mpr (Or.inr hp), hpe⟩
    · rcases foldl_max_mem (qs.map Prod.snd) q.2 with h | h
      · exact ⟨q, List.mem_cons_self q qs, h.symm⟩
      · rcases List.mem_map.mp h with ⟨p, hp, hpe⟩
        exact ⟨p, List.mem_cons.mpr (Or.inr hp), hpe⟩

/-- C8: GetTextureCoordinateCoverge returns the absent value exactly
when the texture-coordinate sequence is empty or the vertex count is
zero, and otherwise returns the axis-aligned bounding rectangle of the
texture-coordinate sequence (it contains every texture coordinate and
attains each edge). -/
theorem C8_texture_coverage (g : VerticesGeometry) :
    (GetTextureCoordinateCoverge g = none ↔
      (g.texture_coordinates_ = [] ∨ g.vertices_ = [])) ∧
    (g.texture_coordinates_ ≠ [] → g.vertices_ ≠ [] →
      GetTextureCoordinateCoverge g = makePointBounds g.texture_coordinates_ ∧
      rectContainsAll ((GetTextureCoordinateCoverge g).getD sampleRect)
        g.texture_coordinates_ ∧
      rectEdgesAttained ((GetTextureCoordinateCoverge g).getD sampleRect)
        g.texture_coordinates_) := by
  rcases g with ⟨v, c, t, i, b, m⟩
  have hcov : t ≠ [] → v ≠ [] →
      GetTextureCoordinateCoverge ⟨v, c, t, i, b, m⟩ = makePointBounds t := by
    intro hT hV
    have h1 : 0 < t.length := List.length_pos.mpr hT
    have h2 : v.length ≠ 0 := fun h => hV (List.length_eq_zero.mp h)
    simp [GetTextureCoordinateCoverge, HasTextureCoordinates, h1, h2]
  constructor
  · constructor
    · intro hnone
      by_contra hcon
      push_neg at hcon
      obtain ⟨hT, hV⟩ := hcon
      rw [hcov hT hV] at hnone
      cases t with
      | nil => exact hT rfl
      | cons p ps => simp [makePointBounds] at hnone
    · intro h
      rcases h with h | h
      · subst h
        simp [GetTextureCoordinateCoverge, HasTextureCoordinates]
      · subst h
        simp [GetTextureCoordinateCoverge, HasTextureCoordinates]
  · intro hT hV
    refine ⟨hcov hT hV, ?_, ?_⟩
    · rw [hcov hT hV]
      cases t with
      | nil => exact absurd rfl hT
      | cons p ps => exact (makePointBounds_spec p ps).1
    · rw [hcov hT hV]
      cases t with
      | nil => exact absurd rfl hT
      | cons p ps => exact (makePointBounds_spec p ps).2

/-- Concrete instantiation of C8_texture_coverage. -/
theorem C8_texture_coverage_witness :
    GetTextureCoordinateCoverge
      { vertices_ := [originPoint], colors_ := [],
        texture_coordinates_ := [originPoint, (2, 3)], indices_ := [],
        bounds_ := sampleRect, vertex_mode_ := VertexMode.kTriangles } =
      makePointBounds [originPoint, (2, 3)] := by
  exact ((C8_texture_coverage
    { vertices_ := [originPoint], colors_ := [],
      texture_coordinates_ := [originPoint, (2, 3)], indices_ := [],
      bounds_ := sampleRect,
      vertex_mode_ := VertexMode.kTriangles }).2 (by decide) (by decide)).1

/-- C4: for each of the three buffer builders, with non-empty stored
indices the vertex count equals the index count, the index width tag is
16-bit and an index buffer holding the stored indices is produced; with
empty stored indices the vertex count equals the vertex-array length,
the index width tag is kNone and no index buffer is produced. -/
theorem C4_builder_envelopes (g : VerticesGeometry) (texture_coverage : Rect)
    (effect_transform : Point → Point) :
    (g.indices_ ≠ [] →
      ((GetPositionBuffer g).vertexCount = g.indices_.length ∧
        (GetPositionBuffer g).indexType = IndexType.k16bit ∧
        (GetPositionBuffer g).hasIndexBuffer = true ∧
        (GetPositionBuffer g).indexData = g.indices_) ∧
      ((GetPositionColorBuffer g).vertexCount = g.indices_.length ∧
        (GetPositionColorBuffer g).indexType = IndexType.k16bit ∧
        (GetPositionColorBuffer g).hasIndexBuffer = true ∧
        (GetPositionColorBuffer g).indexData = g.indices_) ∧
      ((GetPositionUVColorBuffer texture_coverage effect_transform g).vertexCount =
          g.indices_.length ∧
        (GetPositionUVColorBuffer texture_coverage effect_transform g).indexType =
          IndexType.k16bit ∧
        (GetPositionUVColorBuffer texture_coverage effect_transform g).hasIndexBuffer =
          true ∧
        (GetPositionUVColorBuffer texture_coverage effect_transform g).indexData =
          g.indices_)) ∧
    (g.indices_ = [] →
      ((GetPositionBuffer g).vertexCount = g.vertices_.length ∧
        (GetPositionBuffer g).indexType = IndexType.kNone ∧
        (GetPositionBuffer g).hasIndexBuffer = false ∧
        (GetPositionBuffer g).indexData = []) ∧
      ((GetPositionColorBuffer g).vertexCount = g.vertices_.length ∧
        (GetPositionColorBuffer g).indexType = IndexType.kNone ∧
        (GetPositionColorBuffer g).hasIndexBuffer = false ∧
        (GetPositionColorBuffer g).indexData = []) ∧
      ((GetPositionUVColorBuffer texture_coverage effect_transform g).vertexCount =
          g.vertices_.length ∧
        (GetPositionUVColorBuffer texture_coverage effect_transform g).indexType =
          IndexType.kNone ∧
        (GetPositionUVColorBuffer texture_coverage effect_transform g).hasIndexBuffer =
          false ∧
        (GetPositionUVColorBuffer texture_coverage effect_transform g).indexData =
          [])) := by
  constructor
  · intro h
    have hpos : 0 < g.indices_.length := List.length_pos.mpr h
    simp [GetPositionBuffer, GetPositionColorBuffer, GetPositionUVColorBuffer,
      hpos]
  · intro h
    simp [GetPositionBuffer, GetPositionColorBuffer, GetPositionUVColorBuffer,
      h]

/-- Concrete instantiation of C4_builder_envelopes. -/
theorem C4_builder_envelopes_witness :
    (GetPositionBuffer sampleIndexedGeometry).vertexCount = 3 ∧
    (GetPositionBuffer sampleUnindexedGeometry).indexType = IndexType.kNone := by
  constructor
  · have h := (C4_builder_envelopes sampleIndexedGeometry sampleRect
      (fun p => p)).1 (by decide)
    exact h.1.1.trans (by decide)
  · have h := (C4_builder_envelopes sampleUnindexedGeometry sampleRect
      (fun p => p)).2 rfl
    exact h.1.2.1

/-- A packing loop over bounds-checked reads succeeds when every
iteration succeeds. -/
theorem mapOpt_isSome {α β : Type} (f : α → Option β) :
    ∀ l : List α, (∀ a ∈ l, (f a).isSome) → (mapOpt f l).isSome := by
  intro l
  induction l with
  | nil => intro _; rfl
  | cons x xs ih =>
    intro h
    rcases Option.isSome_iff_exists.mp (h x (List.mem_cons_self x xs)) with ⟨b, hb⟩
    rcases Option.isSome_iff_exists.mp
      (ih (fun a ha => h a (List.mem_cons.mpr (Or.inr ha)))) with ⟨r, hr⟩
    simp [mapOpt, hb, hr]

/-- A packing loop over bounds-checked reads fails when some iteration
reads out of bounds. -/
theorem mapOpt_eq_none {α β : Type} (f : α → Option β) :
    ∀ (l : List α) (a : α), a ∈ l → f a = none → mapOpt f l = none := by
  intro l
  induction l with
  | nil => intro a ha _; simp at ha
  | cons x xs ih =>
    intro a ha hfa
    rcases List.mem_cons.mp ha with h | h
    · subst h
      cases hxs : mapOpt f xs <;> simp [mapOpt, hfa, hxs]
    · have hnone := ih a h hfa
      cases hfx : f x <;> simp [mapOpt, hfx, hnone]

/-- Element-wise description of a successful packing loop. -/
theorem mapOpt_getElem {α β : Type} (f : α → Option β) :
    ∀ (l : List α) (r : List β), mapOpt f l = some r →
      ∀ (k : Nat) (a : α), l[k]? = some a → r[k]? = f a := by
  intro l
  induction l with
  | nil => intro r hr k a hk; simp at hk
  | cons x xs ih =>
    intro r hr k a hk
    simp only [mapOpt] at hr
    cases hfx : f x with
    | none => rw [hfx] at hr; simp at hr
    | some b =>
      rw [hfx] at hr
      cases hxs : mapOpt f xs with
      | none => rw [hxs] at hr; simp at hr
      | some r0 =>
        rw [hxs] at hr
        simp only [Option.some.injEq] at hr
        subst hr
        cases k with
        | zero =>
          rw [List.getElem?_cons_zero] at hk
          simp only [Option.some.injEq] at hk
          subst hk
          simp [List.getElem?_cons_zero, hfx]
        | succ k =>
          rw [List.getElem?_cons_succ] at hk
          rw [List.getElem?_cons_succ]
          exact ih r0 hxs k a hk

/-- The std::clamp model stays inside its closed interval. -/
theorem clampQ_bounds (v lo hi : ℚ) (h : lo ≤ hi) :
    lo ≤ clampQ v lo hi ∧ clampQ v lo hi ≤ hi := by
  unfold clampQ
  split_ifs with h1 h2
  · exact ⟨le_refl lo, h⟩
  · exact ⟨h, le_refl hi⟩
  · exact ⟨le_of_not_lt h1, le_of_not_lt h2⟩

/-- The UV packing loop body reads the color array at every vertex
index, whether or not texture coordinates are present, so it fails at
the first index past the colors length. -/
theorem uvLoopBody_none_of_colors_short (texture_coverage : Rect)
    (effect_transform : Point → Point) (g : VerticesGeometry)
    (hlt : g.colors_.length < g.vertices_.length) :
    uvLoopBody texture_coverage effect_transform g g.colors_.length = none := by
  unfold uvLoopBody
  have hv := List.getElem?_eq_getElem (l := g.vertices_)
    (n := g.colors_.length) hlt
  have hcol : g.colors_[g.colors_.length]? = none :=
    List.getElem?_eq_none (le_refl _)
  cases htc : (if HasTextureCoordinates g then
      g.texture_coordinates_[g.colors_.length]?
    else g.vertices_[g.colors_.length]?) with
  | none => simp [hv, htc]
  | some p => simp [hv, htc, hcol]

/-- Under matching attribute lengths the UV packing loop body succeeds
at every in-range index and produces the spec-side record. -/
theorem uvLoopBody_eq_spec (texture_coverage : Rect)
    (effect_transform : Point → Point) (g : VerticesGeometry) (i : Nat)
    (hc : g.colors_.length = g.vertices_.length)
    (ht : g.texture_coordinates_ ≠ [] →
      g.texture_coordinates_.length = g.vertices_.length)
    (hi : i < g.vertices_.length) :
    uvLoopBody texture_coverage effect_transform g i =
      some (specUVRecord texture_coverage effect_transform g i) := by
  unfold uvLoopBody specUVRecord
  have hv := List.getElem?_eq_getElem (l := g.vertices_) (n := i) hi
  have hcol := List.getElem?_eq_getElem (l := g.colors_) (n := i) (by omega)
  have hgdv : g.vertices_.getD i originPoint = g.vertices_[i] :=
    List.getD_eq_getElem _ _ hi
  have hgdc : g.colors_.getD i (0, 0, 0, 0) = g.colors_[i] :=
    List.getD_eq_getElem _ _ (by omega)
  by_cases htex : g.texture_coordinates_ = []
  · have hflag : HasTextureCoordinates g = false := by
      simp [HasTextureCoordinates, htex]
    simp [hflag, htex, hv, hcol, hgdv, hgdc]
  · have h0 : 0 < g.texture_coordinates_.length := List.length_pos.mpr htex
    have hflag : HasTextureCoordinates g = true := by
      simp [HasTextureCoordinates, h0]
    have htl := ht htex
    have htc := List.getElem?_eq_getElem (l := g.texture_coordinates_)
      (n := i) (by omega)
    have hgdt : g.texture_coordinates_.getD i originPoint =
        g.texture_coordinates_[i] := List.getD_eq_getElem _ _ (by omega)
    simp [hflag, htex, hv, hcol, htc, hgdv, hgdc, hgdt]

/-- C9: GetPositionUVColorBuffer reads colors[i] for every vertex index
regardless of texture-coordinate presence — with a colors array shorter
than the vertex array the packing loop reads out of bounds — and under
colors.length = vertices.length (plus the texture-coordinate length
precondition when texture coordinates are present) every array access
in the builder is in bounds. -/
theorem C9_uv_reads_colors (g : VerticesGeometry) (texture_coverage : Rect)
    (effect_transform : Point → Point) :
    (g.colors_.length < g.vertices_.length →
      (GetPositionUVColorBuffer texture_coverage effect_transform g).vertexData =
        none) ∧
    (g.colors_.length = g.vertices_.length →
      (g.texture_coordinates_ ≠ [] →
        g.texture_coordinates_.length = g.vertices_.length) →
      ((GetPositionUVColorBuffer texture_coverage effect_transform g).vertexData).isSome) := by
  have hdata : (GetPositionUVColorBuffer texture_coverage effect_transform g).vertexData =
      mapOpt (uvLoopBody texture_coverage effect_transform g)
        (List.range g.vertices_.length) := rfl
  constructor
  · intro hlt
    rw [hdata]
    exact mapOpt_eq_none _ _ g.colors_.length (List.mem_range.mpr hlt)
      (uvLoopBody_none_of_colors_short texture_coverage effect_transform g hlt)
  · intro hc ht
    rw [hdata]
    apply mapOpt_isSome
    intro a ha
    rw [uvLoopBody_eq_spec texture_coverage effect_transform g a hc ht
      (List.mem_range.mp ha)]
    rfl

/-- Concrete instantiation of C9_uv_reads_colors. -/
theorem C9_uv_reads_colors_witness :
    (GetPositionUVColorBuffer sampleRect (fun p => p)
        shortColorsGeometry).vertexData = none ∧
    ((GetPositionUVColorBuffer sampleRect (fun p => p)
        sampleUnindexedGeometry).vertexData).isSome := by
  constructor
  · exact (C9_uv_reads_colors shortColorsGeometry sampleRect
      (fun p => p)).1 (by decide)
  · exact (C9_uv_reads_colors sampleUnindexedGeometry sampleRect
      (fun p => p)).2 (by decide) (by decide)

/-- C5: under the attribute-length preconditions, the packed record at
every vertex index carries the texture coordinate obtained by applying
the composed transform (normalizing transform of the coverage composed
with the effect transform) to texture_coordinates[i] when present and
to vertices[i] otherwise, with each component independently clamped
into [0, 1 - kEhCloseEnough]; both components are at least 0 and
strictly below 1 for all transform inputs, and kEhCloseEnough is
positive. -/
theorem C5_uv_transform_clamp (texture_coverage : Rect)
    (effect_transform : Point → Point) (g : VerticesGeometry) (i : Nat)
    (hc : g.colors_.length = g.vertices_.length)
    (ht : g.texture_coordinates_ ≠ [] →
      g.texture_coordinates_.length = g.vertices_.length)
    (hi : i < g.vertices_.length) :
    ((GetPositionUVColorBuffer texture_coverage effect_transform g).vertexData.getD [])[i]? =
      some (specUVRecord texture_coverage effect_transform g i) ∧
    0 ≤ (specUVRecord texture_coverage effect_transform g i).textureCoords.1 ∧
    (specUVRecord texture_coverage effect_transform g i).textureCoords.1 ≤
      1 - kEhCloseEnough ∧
    (specUVRecord texture_coverage effect_transform g i).textureCoords.1 < 1 ∧
    0 ≤ (specUVRecord texture_coverage effect_transform g i).textureCoords.2 ∧
    (specUVRecord texture_coverage effect_transform g i).textureCoords.2 ≤
      1 - kEhCloseEnough ∧
    (specUVRecord texture_coverage effect_transform g i).textureCoords.2 < 1 ∧
    0 < kEhCloseEnough := by
  have hdata : (GetPositionUVColorBuffer texture_coverage effect_transform g).vertexData =
      mapOpt (uvLoopBody texture_coverage effect_transform g)
        (List.range g.vertices_.length) := rfl
  have hsome : (mapOpt (uvLoopBody texture_coverage effect_transform g)
      (List.range g.vertices_.length)).isSome := by
    apply mapOpt_isSome
    intro a ha
    rw [uvLoopBody_eq_spec texture_coverage effect_transform g a hc ht
      (List.mem_range.mp ha)]
    rfl
  rcases Option.isSome_iff_exists.mp hsome with ⟨l, hl⟩
  have heps : (0 : ℚ) ≤ 1 - kEhCloseEnough := by norm_num [kEhCloseEnough]
  have hepspos : (0 : ℚ) < kEhCloseEnough := by norm_num [kEhCloseEnough]
  have hlt1 : 1 - kEhCloseEnough < (1 : ℚ) := by linarith
  have hx := clampQ_bounds
    ((composeT (normalizingTransform texture_coverage) effect_transform
      (if g.texture_coordinates_ ≠ [] then
        g.texture_coordinates_.getD i originPoint
      else g.vertices_.getD i originPoint)).1) 0 (1 - kEhCloseEnough) heps
  have hy := clampQ_bounds
    ((composeT (normalizingTransform texture_coverage) effect_transform
      (if g.texture_coordinates_ ≠ [] then
        g.texture_coordinates_.getD i originPoint
      else g.vertices_.getD i originPoint)).2) 0 (1 - kEhCloseEnough) heps
  refine ⟨?_, hx.1, hx.2, lt_of_le_of_lt hx.2 hlt1, hy.1, hy.2,
    lt_of_le_of_lt hy.2 hlt1, hepspos⟩
  rw [hdata, hl, Option.getD_some]
  rw [mapOpt_getElem _ _ l hl i i (List.getElem?_range hi)]
  exact uvLoopBody_eq_spec texture_coverage effect_transform g i hc ht hi

/-- Concrete instantiation of C5_uv_transform_clamp. -/
theorem C5_uv_transform_clamp_witness :
    ((GetPositionUVColorBuffer sampleRect (fun p => p)
        sampleUnindexedGeometry).vertexData.getD [])[0]? =
      some (specUVRecord sampleRect (fun p => p) sampleUnindexedGeometry 0) ∧
    (specUVRecord sampleRect (fun p => p)
        sampleUnindexedGeometry 0).textureCoords.1 < 1 := by
  have h := C5_uv_transform_clamp sampleRect (fun p => p)
    sampleUnindexedGeometry 0 (by decide) (by decide) (by decide)
  exact ⟨h.1, h.2.2.2.1⟩

end VerticesGeo
